import Mathlib

/-!
Shallow embedding of the `quote_your_bs` retrieval pipeline.

Source layout:
* `src/runnables/retrieval.py`  — `MessageRetrieval` (pool, dedup, sort, truncate)
* `src/runnables/query_variation.py` — `QueryVariation`
* `src/runnables/answer.py`     — `FormulateAnswer`
* `src/embeddings/nomic.py`     — `NomicEmbeddings` (role prefixes)
* `src/prompts.py`              — prompt strings
* `ingestion.py`                — source-id assignment over split chunks
* `src/loaders/messenger_loader.py` — `MetaMessengerLoader.lazy_load`

Distance scores (Python floats used only through `<`/`≤` comparison and
sorting) are modelled as rationals.
-/

namespace QuoteYourBS

/-- A langchain `Document` as used by the retrieval stage: `page_content`
plus the `metadata["source"]` field (the only metadata key the retrieval
code reads, via the `SOURCE` constant). -/
structure Document where
  page_content : String
  source : String
  deriving DecidableEq, Repr

/-- A `(Document, score)` pair as returned by
`vector_store.similarity_search_with_score`. -/
abbrev ScoredDoc := Document × ℚ

/-! ### `MessageRetrieval._process_documents` (src/runnables/retrieval.py lines 34-56) -/

/-- The dedup loop of `_process_documents`:
```
seen_sources = set()
unique_retrieved_docs = []
for doc, score in all_retrieved_docs:
    if doc.metadata[SOURCE] not in seen_sources:
        seen_sources.add(doc.metadata[SOURCE])
        unique_retrieved_docs.append((doc, score))
```
The Python `set` is modelled as the list of sources added so far. -/
def dedupBySource : List ScoredDoc → List String → List ScoredDoc
  | [], _ => []
  | (doc, score) :: rest, seen =>
    if doc.source ∈ seen then dedupBySource rest seen
    else (doc, score) :: dedupBySource rest (doc.source :: seen)

/-- The comparison `key=lambda x: x[1]` of the sort in
`_process_documents`: compare scored documents by score. -/
def scoreLE (a b : ScoredDoc) : Prop := a.2 ≤ b.2

instance : DecidableRel scoreLE := fun a b => inferInstanceAs (Decidable (a.2 ≤ b.2))

instance : IsTotal ScoredDoc scoreLE := ⟨fun a b => le_total a.2 b.2⟩

instance : IsTrans ScoredDoc scoreLE := ⟨fun _ _ _ h h' => le_trans h h'⟩

/-- Sorting step `unique_retrieved_docs.sort(key=lambda x: x[1])` — Python's stable sort
ascending by score. A stable sort's output is uniquely determined by the
key order and the input order of equal-key elements, so the (stable)
insertion sort computes the same list as Python's timsort. -/
def sortByScore (docs : List ScoredDoc) : List ScoredDoc :=
  docs.insertionSort scoreLE

/-- Step `_process_documents` keeping the scores (dedup, sort ascending by
score, truncate to `top_k_results`). -/
def processScored (all_retrieved_docs : List ScoredDoc) (top_k_results : Nat) :
    List ScoredDoc :=
  (sortByScore (dedupBySource all_retrieved_docs [])).take top_k_results

/-- Method `MessageRetrieval._process_documents`: dedup by source (first-seen
wins), sort ascending by score, truncate to `top_k_results`, drop the
scores. -/
def processDocuments (all_retrieved_docs : List ScoredDoc) (top_k_results : Nat) :
    List Document :=
  (processScored all_retrieved_docs top_k_results).map Prod.fst

/-- The score that the pool associates to a source at its first
occurrence — "whichever score happened to be kept" by first-seen-wins
dedup. -/
def firstScore (pool : List ScoredDoc) (src : String) : Option ℚ :=
  (pool.find? (fun p => p.1.source == src)).map Prod.snd

/-- The best (lowest) score observed for a source across the whole pool
(the spec's words in claim C1), `none` when the source never occurs. -/
def bestScore (pool : List ScoredDoc) (src : String) : Option ℚ :=
  ((pool.filter (fun p => p.1.source == src)).map Prod.snd).min?

end QuoteYourBS

namespace QuoteYourBS

-- sanity example material for the concrete-pool theorems
/-- Chunk X of the spec's first-seen-wins example. -/
def chunkX : Document := ⟨"x text", "conv1-4"⟩

/-- A second chunk with a distinct source. -/
def chunkY : Document := ⟨"y text", "conv2-7"⟩

/-- A pool where X is seen first with score mkRat 9 10 and later with the
strictly better score mkRat 1 10, and Y is seen once with score mkRat 5 10. -/
def examplePool : List ScoredDoc :=
  [(chunkX, mkRat 9 10), (chunkY, mkRat 5 10), (chunkX, mkRat 1 10)]

example : dedupBySource examplePool [] = [(chunkX, mkRat 9 10), (chunkY, mkRat 5 10)] := by decide

example : processDocuments examplePool 20 = [chunkY, chunkX] := by decide

/-! ### The pipeline context (`QueryContext`)

A stage's input/output is a Python dict threaded through the pipeline.
Modelled as a partial map from string keys to field values.

The key constants live in `src/constants.py`, which is not among the
sources; their values follow the spec's `QueryContext` field names (§3)
and the literal `"source"` key written in `ingestion.py`. -/

/-- A value stored in the pipeline context dict. -/
inductive Val where
  | str (s : String)
  | strList (l : List String)
  | docs (d : List Document)
  deriving DecidableEq, Repr

/-- A Python dict with string keys, as a partial map. -/
def Ctx := String → Option Val

/-- Modelled from the spec: `src/constants.py` is missing from the
sources; `QUESTION` is the `question` field name of `QueryContext`. -/
def QUESTION : String := "question"

/-- Modelled from the spec: `QUERY_VARIATIONS` is the `query_variations`
field name of `QueryContext`. -/
def QUERY_VARIATIONS : String := "query_variations"

/-- Modelled from the spec: `RETRIEVED_MESSAGES` is the
`retrieved_messages` field name of `QueryContext`. -/
def RETRIEVED_MESSAGES : String := "retrieved_messages"

/-- Modelled from the spec: `ANSWER` is the `answer` field name of
`QueryContext`. -/
def ANSWER : String := "answer"

/-- The Python dict expression `\x7bkey: v, **input_\x7d` used by every
stage's return: a literal entry followed by spreading the input dict, so
for any key present in `input_` the input value wins. -/
def dictWithSpread (key : String) (v : Val) (input : Ctx) : Ctx :=
  fun k =>
    match input k with
    | some w => some w
    | none => if k = key then some v else none

/-- Read `input_.get(QUERY_VARIATIONS, [])` — the list of query variations read
from the context, defaulting to the empty list. -/
def getQueryVariations (input : Ctx) : List String :=
  match input QUERY_VARIATIONS with
  | some (.strList l) => l
  | _ => []

/-- Read `input_.get(RETRIEVED_MESSAGES, [])` in `FormulateAnswer.invoke`. -/
def getRetrievedMessages (input : Ctx) : List Document :=
  match input RETRIEVED_MESSAGES with
  | some (.docs d) => d
  | _ => []

/-- Read `input_.get(QUESTION, "")` in the stages. -/
def getQuestion (input : Ctx) : String :=
  match input QUESTION with
  | some (.str s) => s
  | _ => ""

/-! ### `MessageRetrieval.invoke` (src/runnables/retrieval.py lines 58-87)

The vector store is the external collaborator
`vector_store.similarity_search_with_score(query=query, k=...)`, passed
in as a function of the query string and `k`. -/

/-- The pool built by the retrieval loop: one similarity search per query
variation, in input order, results concatenated. -/
def retrievalPool (search : String → Nat → List ScoredDoc)
    (max_returned_search : Nat) (input : Ctx) : List ScoredDoc :=
  ((getQueryVariations input).map (fun q => search q max_returned_search)).flatten

/-- The similarity-search calls `MessageRetrieval.invoke` issues against
the vector index, in order: one `(query, k)` call per query variation. -/
def retrievalCalls (max_returned_search : Nat) (input : Ctx) : List (String × Nat) :=
  (getQueryVariations input).map (fun q => (q, max_returned_search))

/-- Method `MessageRetrieval.invoke` (and `ainvoke`, which runs the same loop and
merge): pool, process, and return `\x7bRETRIEVED_MESSAGES: ..., **input_\x7d`. -/
def messageRetrievalInvoke (search : String → Nat → List ScoredDoc)
    (max_returned_search top_k_results : Nat) (input : Ctx) : Ctx :=
  dictWithSpread RETRIEVED_MESSAGES
    (.docs (processDocuments (retrievalPool search max_returned_search input) top_k_results))
    input

/-! ### `QueryVariation.invoke` (src/runnables/query_variation.py lines 32-76) -/

/-- The spec's error taxonomy name for a Chat Completion Gateway error or
schema-violating output. `QueryVariation.invoke` wraps no handler around
`structured_llm.invoke`, so a gateway failure propagates out of the stage;
the gateway outcome is modelled as `Except GenerationFailure`. -/
structure GenerationFailure where
  message : String
  deriving DecidableEq, Repr

/-- Method `QueryVariation.invoke` (and `ainvoke`): call the structured LLM on
the question and return `\x7bQUERY_VARIATIONS: response, **input_\x7d`; a
gateway error is not caught and fails the stage. -/
def queryVariationInvoke (llm : String → Except GenerationFailure (List String))
    (input : Ctx) : Except GenerationFailure Ctx :=
  match llm (getQuestion input) with
  | .error e => .error e
  | .ok query_variations =>
      .ok (dictWithSpread QUERY_VARIATIONS (.strList query_variations) input)

/-! ### `FormulateAnswer.invoke` (src/runnables/answer.py lines 35-67) and
`src/prompts.py` -/

/-- String `answer_formulation_prompt` from `src/prompts.py` (lines 51-57),
the adjacent Python string literals concatenated. -/
def answer_formulation_prompt : String :=
  "You are a helpful assistant that answers questions based on the provided context from a chat history. "
  ++ "Use the context to provide accurate and relevant answers. "
  ++ "If the context does not contain enough information to answer the question, respond with "
  ++ "'I'm sorry, but I don't have enough information to answer that question.' "
  ++ "Be concise and to the point in your responses."

/-- The fixed refusal sentence of the spec ("Refusal verbatim"). -/
def refusalSentence : String :=
  "I'm sorry, but I don't have enough information to answer that question."

/-- Template `answer_formulation_template` rendered with the question and the
flattened messages: `"Question: \x7bquestion\x7d\nMessages: \x7bretrieved_messages\x7d"`. -/
def renderAnswerTemplate (question retrieved_messages : String) : String :=
  "Question: " ++ question ++ "\nMessages: " ++ retrieved_messages

/-- Flattening `"\n".join([msg.page_content for msg in retrieved_messages])`. -/
def flattenMessages (msgs : List Document) : String :=
  String.intercalate "\n" (msgs.map Document.page_content)

/-- Method `FormulateAnswer.invoke`: flatten the ranked chunks, run the
structured LLM on the system prompt plus rendered template, and return
`\x7bANSWER: response.answer, **input_\x7d`. The chat-completion gateway is
the function `llm system_prompt human_prompt`. -/
def formulateAnswerInvoke (llm : String → String → String) (input : Ctx) : Ctx :=
  let messages_content := flattenMessages (getRetrievedMessages input)
  let answer := llm answer_formulation_prompt
      (renderAnswerTemplate (getQuestion input) messages_content)
  dictWithSpread ANSWER (.str answer) input

/-! ### `NomicEmbeddings` (src/embeddings/nomic.py)

The OpenAI embeddings endpoint is the external collaborator; it is
passed in as a function `api` from the input string actually sent to the
endpoint to the returned vector. `embed_documents` with
`check_embedding_ctx_length` disabled (as configured in `ingestion.py`
and `main.py`) sends exactly the prefixed texts, in order, to the
endpoint; the batching into `client.create` calls of `chunk_size` texts
does not change which strings are sent. -/

/-- Helper `NomicEmbeddings._prefixed`: prepend `prefix` to each text. -/
def prefixedTexts (texts : List String) (pre : String) : List String :=
  texts.map (fun t => pre ++ t)

/-- Method `NomicEmbeddings.embed_documents` (and `aembed_documents`):
prefix every text with `"search_document: "` and embed the prefixed
texts. -/
def embed_documents (api : String → List ℚ) (texts : List String) : List (List ℚ) :=
  (prefixedTexts texts "search_document: ").map api

/-- Method `NomicEmbeddings.embed_query` (and `aembed_query`): prefix the
text with `"search_query: "` and take the first result of
`embed_documents` on the singleton list. -/
def embed_query (api : String → List ℚ) (text : String) : List ℚ :=
  (embed_documents api (prefixedTexts [text] "search_query: ")).headI

/-! ### Ingestion source-id assignment (ingestion.py lines 42-44)

```
for i, text in enumerate(texts):
    text.metadata["source"] = f"\x7btext.metadata.get(CHAT_ID, 'blank')\x7d-\x7bi\x7d"
```
where `texts` is the full list of chunks produced by splitting all loaded
conversations. -/

/-- A chunk as seen by the ingestion loop: only its conversation-id
metadata matters for the source-id assignment. -/
structure IngestChunk where
  chat_id : Option String
  deriving DecidableEq, Repr

/-- Read `text.metadata.get(CHAT_ID, 'blank')`. -/
def chatOf (c : IngestChunk) : String := c.chat_id.getD "blank"

/-- The `f"\x7bchat_id\x7d-\x7bi\x7d"` source id assigned to the chunk at
(global) position `i`. -/
def sourceIdAt (c : IngestChunk) (i : Nat) : String :=
  chatOf c ++ "-" ++ Nat.repr i

/-- The ingestion loop `for i, text in enumerate(texts)` assigning
`metadata["source"]` in order, starting at index `k` (the loop runs with
`k = 0`). -/
def assignSourceIds : Nat → List IngestChunk → List String
  | _, [] => []
  | k, c :: cs => sourceIdAt c k :: assignSourceIds (k + 1) cs

/-- Modelled from the spec's words in claim C9 (a comparison definition,
not code): a source id of the form `\x7bconversation_id\x7d-\x7bchunk_sequence_number\x7d`
"where the sequence number is the chunk's index within its conversation",
i.e. the count of earlier chunks of the same conversation. The first
argument accumulates the chunks already processed. -/
def specSourceIds : List IngestChunk → List IngestChunk → List String
  | _, [] => []
  | prev, c :: cs =>
      (chatOf c ++ "-" ++ Nat.repr ((prev.filter (fun u => chatOf u = chatOf c)).length))
        :: specSourceIds (prev ++ [c]) cs

/-! ### `MetaMessengerLoader.lazy_load` (src/loaders/messenger_loader.py lines 112-139)

Per file the loader runs
```
try:
    yield self._parse_file(file_path)
except json.JSONDecodeError as e:
    logger.error(...)
except Exception as e:
    logger.error(...)
```
File parsing is external I/O; a run of the loader over a directory is
modelled by the list of per-file `_parse_file` outcomes in iteration
order, each either a parsed document or a raised exception. -/

/-- An exception raised while parsing one conversation file
(`json.JSONDecodeError` or any other `Exception`). -/
structure ParseError where
  message : String
  deriving DecidableEq, Repr

/-- Generator `MetaMessengerLoader.lazy_load` over the per-file parse
outcomes: a parsed document is yielded, a raised exception is caught,
logged and skipped, and iteration continues with the remaining files. -/
def lazyLoad : List (Except ParseError Document) → List Document
  | [] => []
  | .ok d :: rest => d :: lazyLoad rest
  | .error _ :: rest => lazyLoad rest

/-! ### Lemmas about the retrieval merge -/

/-- Any pair kept by the dedup loop is the first occurrence of its source
in the remaining pool, and its source was not yet seen. -/
theorem mem_dedupBySource_find {pool : List ScoredDoc} {seen : List String}
    {d : Document} {s : ℚ} (h : (d, s) ∈ dedupBySource pool seen) :
    d.source ∉ seen ∧ pool.find? (fun p => p.1.source == d.source) = some (d, s) := by
  induction pool generalizing seen with
  | nil => simp [dedupBySource] at h
  | cons hd tl ih =>
    obtain ⟨d0, s0⟩ := hd
    by_cases hseen : d0.source ∈ seen
    · simp only [dedupBySource, if_pos hseen] at h
      obtain ⟨hnot, hfind⟩ := ih h
      have hne : d0.source ≠ d.source := fun he => hnot (he ▸ hseen)
      refine ⟨hnot, ?_⟩
      rw [List.find?_cons_of_neg, hfind]
      simpa using hne
    · simp only [dedupBySource, if_neg hseen, List.mem_cons] at h
      rcases h with h | h
      · obtain ⟨rfl, rfl⟩ := Prod.mk.injEq .. ▸ h
        refine ⟨hseen, ?_⟩
        rw [List.find?_cons_of_pos]
        simp
      · obtain ⟨hnot, hfind⟩ := ih h
        simp only [List.mem_cons, not_or] at hnot
        have hne : d0.source ≠ d.source := fun he => hnot.1 he.symm
        refine ⟨hnot.2, ?_⟩
        rw [List.find?_cons_of_neg, hfind]
        simpa using hne

/-- The dedup loop keeps at most one pair per source. -/
theorem dedupBySource_pairwise (pool : List ScoredDoc) (seen : List String) :
    (dedupBySource pool seen).Pairwise (fun a b => a.1.source ≠ b.1.source) := by
  induction pool generalizing seen with
  | nil => exact List.Pairwise.nil
  | cons hd tl ih =>
    obtain ⟨d0, s0⟩ := hd
    by_cases hseen : d0.source ∈ seen
    · simpa only [dedupBySource, if_pos hseen] using ih seen
    · simp only [dedupBySource, if_neg hseen]
      refine List.Pairwise.cons ?_ (ih (d0.source :: seen))
      rintro ⟨d, s⟩ hmem
      have := (mem_dedupBySource_find hmem).1
      simp only [List.mem_cons, not_or] at this
      exact fun he => this.1 he.symm

/-- Scores surviving `_process_documents` come from the dedup result. -/
theorem mem_processScored {pool : List ScoredDoc} {k : Nat} {p : ScoredDoc}
    (h : p ∈ processScored pool k) : p ∈ dedupBySource pool [] := by
  have h1 : p ∈ sortByScore (dedupBySource pool []) := List.take_subset _ _ h
  exact (List.perm_insertionSort scoreLE (dedupBySource pool [])).mem_iff.mp h1

/-- The scored list surviving `_process_documents` is sorted ascending by
the score kept at dedup time. -/
theorem processScored_pairwise (pool : List ScoredDoc) (k : Nat) :
    (processScored pool k).Pairwise scoreLE :=
  (List.sorted_insertionSort scoreLE (dedupBySource pool [])).sublist
    (List.take_sublist _ _)

/-- The score kept for a document surviving dedup is the score of the
first occurrence of its source in the pool. -/
theorem firstScore_of_mem_dedup {pool : List ScoredDoc} {d : Document} {s : ℚ}
    (h : (d, s) ∈ dedupBySource pool []) : firstScore pool d.source = some s := by
  have := (mem_dedupBySource_find h).2
  simp [firstScore, this]

/-! ### Lemmas about the dict-spread return value -/

theorem dictWithSpread_preserves {input : Ctx} {key k : String} {v w : Val}
    (h : input k = some w) : dictWithSpread key v input k = some w := by
  simp [dictWithSpread, h]

theorem dictWithSpread_key_isSome (input : Ctx) (key : String) (v : Val) :
    dictWithSpread key v input key ≠ none := by
  unfold dictWithSpread
  cases h : input key <;> simp [h]

theorem dictWithSpread_other {input : Ctx} {key k : String} (v : Val)
    (h : k ≠ key) : dictWithSpread key v input k = input k := by
  unfold dictWithSpread
  cases h' : input k <;> simp [h', h]

/-! ### Claims C1-C8 -/

/-- C1 (counterexample): `_process_documents` does NOT order the output by
the best (lowest) score observed per source across all queries.  On the
pool `[(X, 0.9), (Y, 0.5), (X, 0.1)]` the output is `[Y, X]`, yet the
best observed score of `X` (0.1) is strictly below the best observed
score of `Y` (0.5), so the output is not ascending in best observed
score. -/
theorem retrieval_not_ordered_by_best_score :
    processDocuments examplePool 20 = [chunkY, chunkX] ∧
    bestScore examplePool chunkY.source = some (mkRat 5 10) ∧
    bestScore examplePool chunkX.source = some (mkRat 1 10) ∧
    ¬ ((mkRat 5 10 : ℚ) ≤ mkRat 1 10) := by decide

/-- C1 (amended): the returned list is ordered ascending by the score
kept for each source at dedup time — the score of the source's first
occurrence in the pooled list — not by the best score observed. -/
theorem retrieval_ordered_by_kept_score (pool : List ScoredDoc) (top_k_results : Nat) :
    (processDocuments pool top_k_results).Pairwise (fun a b =>
      ∃ sa sb, firstScore pool a.source = some sa ∧
        firstScore pool b.source = some sb ∧ sa ≤ sb) := by
  unfold processDocuments
  refine List.pairwise_map.mpr ?_
  refine (processScored_pairwise pool top_k_results).imp_of_mem ?_
  intro p q hp hq hle
  exact ⟨p.2, q.2, firstScore_of_mem_dedup (mem_processScored hp),
    firstScore_of_mem_dedup (mem_processScored hq), hle⟩

/-- C2: deduplication is first-seen wins — every pair kept by the dedup
loop is the first occurrence of its source in the pooled list (so a
later, possibly better-scored, occurrence is discarded); moreover on the
spec's example, X seen first with 0.9 and again with 0.1 is kept with
0.9. -/
theorem dedup_first_seen_wins :
    (∀ (pool : List ScoredDoc) (d : Document) (s : ℚ),
        (d, s) ∈ dedupBySource pool [] →
        pool.find? (fun p => p.1.source == d.source) = some (d, s)) ∧
    dedupBySource [(chunkX, mkRat 9 10), (chunkX, mkRat 1 10)] []
      = [(chunkX, mkRat 9 10)] := by
  refine ⟨fun pool d s h => (mem_dedupBySource_find h).2, by decide⟩

/-- Witness for C2 at the concrete example pool. -/
theorem dedup_first_seen_wins_witness :
    ((chunkX, (mkRat 9 10 : ℚ)) ∈ dedupBySource examplePool []) ∧
    examplePool.find? (fun p => p.1.source == chunkX.source)
      = some (chunkX, mkRat 9 10) :=
  ⟨by decide, dedup_first_seen_wins.1 examplePool chunkX (mkRat 9 10) (by decide)⟩

/-- C4: the retrieval output never contains two chunks with the same
source id, for every pool of scored candidates and every cap. -/
theorem retrieval_output_sources_distinct (pool : List ScoredDoc) (top_k_results : Nat) :
    (processDocuments pool top_k_results).Pairwise (fun a b => a.source ≠ b.source) := by
  have h := dedupBySource_pairwise pool []
  have h2 : (sortByScore (dedupBySource pool [])).Pairwise
      (fun a b => a.1.source ≠ b.1.source) :=
    ((List.perm_insertionSort scoreLE (dedupBySource pool [])).pairwise_iff
      (fun hxy => hxy.symm)).mpr h
  exact List.pairwise_map.mpr ((h2.sublist (List.take_sublist _ _)))

/-- C5: with an empty effective query set the retrieval stage issues no
similarity-search call and returns the empty list. -/
theorem empty_variations_law (search : String → Nat → List ScoredDoc)
    (max_returned_search top_k_results : Nat) (input : Ctx)
    (hvars : getQueryVariations input = [])
    (hout : input RETRIEVED_MESSAGES = none) :
    retrievalCalls max_returned_search input = [] ∧
    messageRetrievalInvoke search max_returned_search top_k_results input
      RETRIEVED_MESSAGES = some (.docs []) := by
  constructor
  · simp [retrievalCalls, hvars]
  · simp [messageRetrievalInvoke, dictWithSpread, hout, retrievalPool, hvars,
      processDocuments, processScored, sortByScore, dedupBySource]

/-- An input context holding only the question, for the C5 witness. -/
def questionOnlyCtx : Ctx :=
  fun k => if k = QUESTION then some (.str "Where did we discuss buying rings?") else none

/-- Witness for C5 at a concrete context with no query variations. -/
theorem empty_variations_law_witness :
    getQueryVariations questionOnlyCtx = [] ∧
    questionOnlyCtx RETRIEVED_MESSAGES = none ∧
    (retrievalCalls 10 questionOnlyCtx = [] ∧
      messageRetrievalInvoke (fun _ _ => []) 10 20 questionOnlyCtx
        RETRIEVED_MESSAGES = some (.docs [])) :=
  ⟨by decide, by decide,
    empty_variations_law (fun _ _ => []) 10 20 questionOnlyCtx (by decide) (by decide)⟩

/-- C6: every stage returns a context that preserves every key-value pair
of its input unchanged (the input dict is spread last, so input entries
win), makes its own output field present, and leaves every key other
than its own output field exactly as in the input — in particular the
question written by the caller survives each stage intact. -/
theorem stages_preserve_context
    (llmQ : String → Except GenerationFailure (List String))
    (search : String → Nat → List ScoredDoc) (mr tk : Nat)
    (llmA : String → String → String) (input : Ctx) (k : String) (v : Val)
    (h : input k = some v) :
    (∀ out, queryVariationInvoke llmQ input = .ok out →
        out k = some v ∧ out QUERY_VARIATIONS ≠ none ∧
        ∀ q, q ≠ QUERY_VARIATIONS → out q = input q) ∧
    (messageRetrievalInvoke search mr tk input k = some v ∧
      messageRetrievalInvoke search mr tk input RETRIEVED_MESSAGES ≠ none ∧
      ∀ q, q ≠ RETRIEVED_MESSAGES → messageRetrievalInvoke search mr tk input q = input q) ∧
    (formulateAnswerInvoke llmA input k = some v ∧
      formulateAnswerInvoke llmA input ANSWER ≠ none ∧
      ∀ q, q ≠ ANSWER → formulateAnswerInvoke llmA input q = input q) := by
  refine ⟨?_, ?_, ?_⟩
  · intro out hout
    unfold queryVariationInvoke at hout
    cases hl : llmQ (getQuestion input) with
    | error e => rw [hl] at hout; cases hout
    | ok vars =>
        rw [hl] at hout
        cases hout
        exact ⟨dictWithSpread_preserves h, dictWithSpread_key_isSome _ _ _, fun q hq =>
          dictWithSpread_other _ hq⟩
  · exact ⟨dictWithSpread_preserves h, dictWithSpread_key_isSome _ _ _, fun q hq =>
      dictWithSpread_other _ hq⟩
  · exact ⟨dictWithSpread_preserves h, dictWithSpread_key_isSome _ _ _, fun q hq =>
      dictWithSpread_other _ hq⟩

/-- Witness for C6 at a concrete question-only context and concrete
gateway functions. -/
theorem stages_preserve_context_witness :
    questionOnlyCtx QUESTION = some (.str "Where did we discuss buying rings?") ∧
    (∀ out, queryVariationInvoke (fun _ => .ok ["I bought a ring."]) questionOnlyCtx = .ok out →
        out QUESTION = some (.str "Where did we discuss buying rings?") ∧
        out QUERY_VARIATIONS ≠ none ∧
        ∀ q, q ≠ QUERY_VARIATIONS → out q = questionOnlyCtx q) :=
  ⟨by decide,
    (stages_preserve_context (fun _ => .ok ["I bought a ring."]) (fun _ _ => []) 10 20
      (fun _ _ => "answer") questionOnlyCtx QUESTION
      (.str "Where did we discuss buying rings?") (by decide)).1⟩

/-- C7: a Chat Completion Gateway failure during query expansion is not
caught by `QueryVariation.invoke` — the stage fails with the propagated
generation failure instead of returning a context (so it never silently
falls back to the original question or an empty variation list). -/
theorem expansion_failure_propagates
    (llm : String → Except GenerationFailure (List String)) (input : Ctx)
    (e : GenerationFailure) (h : llm (getQuestion input) = .error e) :
    queryVariationInvoke llm input = .error e := by
  simp [queryVariationInvoke, h]

/-- Witness for C7 with a gateway that always fails. -/
theorem expansion_failure_propagates_witness :
    ((fun _ : String => (.error ⟨"gateway unreachable"⟩ :
        Except GenerationFailure (List String)))
      (getQuestion (fun _ => none)) = .error ⟨"gateway unreachable"⟩) ∧
    queryVariationInvoke (fun _ => .error ⟨"gateway unreachable"⟩) (fun _ => none)
      = .error ⟨"gateway unreachable"⟩ :=
  ⟨rfl, expansion_failure_propagates _ _ _ rfl⟩

/-- C3: the query-role embedding double-prefixes — `embed_query t`
delegates to `embed_documents` on `"search_query: " + t`, which prepends
the document prefix again, so the string reaching the embedding API is
`"search_document: search_query: " + t` and the query-role encoding of
`t` equals the document-role encoding of `"search_query: " + t`. -/
theorem embed_query_double_prefix (api : String → List ℚ) (text : String) :
    embed_query api text = api ("search_document: search_query: " ++ text) ∧
    embed_query api text = (embed_documents api ["search_query: " ++ text]).headI := by
  refine ⟨?_, rfl⟩
  show api ("search_document: " ++ ("search_query: " ++ text)) = _
  rw [← String.append_assoc]
  congr 1

end QuoteYourBS

namespace QuoteYourBS

/-- The text of `answer_formulation_prompt` before the quoted refusal
sentence. -/
def answerPromptPre : String :=
  "You are a helpful assistant that answers questions based on the provided context from a chat history. "
  ++ "Use the context to provide accurate and relevant answers. "
  ++ "If the context does not contain enough information to answer the question, respond with '"

/-- The text of `answer_formulation_prompt` after the quoted refusal
sentence. -/
def answerPromptPost : String :=
  "' Be concise and to the point in your responses."

/-- Modelled from the spec: the Chat Completion Gateway (an external
collaborator, not part of the sources) obeys the system instruction of
the synthesis stage — when the provided context is empty (insufficient
grounding), it returns the fixed refusal sentence verbatim. -/
def GatewayRefusalConformant (llm : String → String → String) : Prop :=
  ∀ question, llm answer_formulation_prompt (renderAnswerTemplate question "")
    = refusalSentence

set_option maxRecDepth 8192 in
/-- C8: the system prompt of the synthesis stage embeds the spec's
refusal sentence character for character, and for any gateway meeting
that instruction, invoking `FormulateAnswer` on an empty ranked list
yields exactly the refusal sentence as the answer. -/
theorem refusal_verbatim (llm : String → String → String) (input : Ctx)
    (hconf : GatewayRefusalConformant llm)
    (hempty : getRetrievedMessages input = [])
    (hans : input ANSWER = none) :
    answer_formulation_prompt = answerPromptPre ++ refusalSentence ++ answerPromptPost ∧
    formulateAnswerInvoke llm input ANSWER = some (.str refusalSentence) := by
  constructor
  · decide
  · unfold formulateAnswerInvoke
    rw [hempty]
    have hflat : flattenMessages [] = "" := rfl
    rw [hflat, hconf (getQuestion input)]
    simp [dictWithSpread, hans]

/-- Witness for C8: a gateway that always answers the refusal sentence,
applied to a question-only context. -/
theorem refusal_verbatim_witness :
    GatewayRefusalConformant (fun _ _ => refusalSentence) ∧
    getRetrievedMessages questionOnlyCtx = [] ∧
    questionOnlyCtx ANSWER = none ∧
    (answer_formulation_prompt = answerPromptPre ++ refusalSentence ++ answerPromptPost ∧
      formulateAnswerInvoke (fun _ _ => refusalSentence) questionOnlyCtx ANSWER
        = some (.str refusalSentence)) :=
  ⟨fun _ => rfl, by decide, by decide,
    refusal_verbatim (fun _ _ => refusalSentence) questionOnlyCtx
      (fun _ => rfl) (by decide) (by decide)⟩

end QuoteYourBS

namespace QuoteYourBS

/-! ### Decimal representation lemmas, used for source-id uniqueness -/

/-- Decimal value of a digit string; inverts `Nat.repr`. -/
def val10 (l : List Char) : Nat := l.foldl (fun a c => 10 * a + (c.toNat - 48)) 0

theorem toDigitsCore_acc (b : Nat) : ∀ (fuel n : Nat) (acc : List Char),
    Nat.toDigitsCore b fuel n acc = Nat.toDigitsCore b fuel n [] ++ acc
  | 0, _, _ => rfl
  | fuel + 1, n, acc => by
    simp only [Nat.toDigitsCore]
    by_cases h : n / b = 0
    · simp [h]
    · rw [if_neg h, if_neg h,
        toDigitsCore_acc b fuel (n / b) (Nat.digitChar (n % b) :: acc),
        toDigitsCore_acc b fuel (n / b) [Nat.digitChar (n % b)]]
      simp

theorem digitChar_toNat_sub (d : Nat) (h : d < 10) :
    (Nat.digitChar d).toNat - 48 = d := by
  interval_cases d <;> decide

theorem digitChar_ne_dash (d : Nat) : Nat.digitChar d ≠ '-' := by
  by_cases h : d < 16
  · interval_cases d <;> decide
  · unfold Nat.digitChar
    have h0 : d ≠ 0 := by omega
    have h1 : d ≠ 1 := by omega
    have h2 : d ≠ 2 := by omega
    have h3 : d ≠ 3 := by omega
    have h4 : d ≠ 4 := by omega
    have h5 : d ≠ 5 := by omega
    have h6 : d ≠ 6 := by omega
    have h7 : d ≠ 7 := by omega
    have h8 : d ≠ 8 := by omega
    have h9 : d ≠ 9 := by omega
    have h10 : d ≠ 10 := by omega
    have h11 : d ≠ 11 := by omega
    have h12 : d ≠ 12 := by omega
    have h13 : d ≠ 13 := by omega
    have h14 : d ≠ 14 := by omega
    have h15 : d ≠ 15 := by omega
    simp only [h0, h1, h2, h3, h4, h5, h6, h7, h8, h9, h10, h11, h12, h13,
      h14, h15, if_false]
    decide

theorem val10_append_singleton (l : List Char) (c : Char) :
    val10 (l ++ [c]) = 10 * val10 l + (c.toNat - 48) := by
  simp [val10, List.foldl_append]

theorem val10_toDigitsCore : ∀ (fuel n : Nat), n < fuel →
    val10 (Nat.toDigitsCore 10 fuel n []) = n := by
  intro fuel
  induction fuel with
  | zero => omega
  | succ fuel ih =>
    intro n hn
    simp only [Nat.toDigitsCore]
    by_cases h : n / 10 = 0
    · rw [if_pos h]
      have hd := digitChar_toNat_sub (n % 10) (by omega)
      simp [val10, hd]
      omega
    · rw [if_neg h,
        toDigitsCore_acc 10 fuel (n / 10) [Nat.digitChar (n % 10)],
        val10_append_singleton, ih (n / 10) (by omega),
        digitChar_toNat_sub (n % 10) (by omega)]
      omega

theorem dash_not_mem_toDigitsCore : ∀ (fuel n : Nat) (acc : List Char),
    '-' ∉ acc → '-' ∉ Nat.toDigitsCore 10 fuel n acc := by
  intro fuel
  induction fuel with
  | zero => intro n acc h; exact h
  | succ fuel ih =>
    intro n acc h
    simp only [Nat.toDigitsCore]
    by_cases hd : n / 10 = 0
    · rw [if_pos hd]
      intro hmem
      rcases List.mem_cons.mp hmem with he | he
      · exact digitChar_ne_dash (n % 10) he.symm
      · exact h he
    · rw [if_neg hd]
      refine ih (n / 10) _ ?_
      intro hmem
      rcases List.mem_cons.mp hmem with he | he
      · exact digitChar_ne_dash (n % 10) he.symm
      · exact h he

theorem repr_data (n : Nat) :
    (Nat.repr n).data = Nat.toDigitsCore 10 (n + 1) n [] := rfl

theorem dash_not_mem_repr (n : Nat) : '-' ∉ (Nat.repr n).data := by
  rw [repr_data]
  exact dash_not_mem_toDigitsCore _ _ _ (by simp)

theorem natRepr_injective {m n : Nat} (h : Nat.repr m = Nat.repr n) : m = n := by
  have hd : (Nat.repr m).data = (Nat.repr n).data := by rw [h]
  rw [repr_data, repr_data] at hd
  have h1 := val10_toDigitsCore (m + 1) m (by omega)
  have h2 := val10_toDigitsCore (n + 1) n (by omega)
  rw [← h1, ← h2, hd]

theorem dash_split_inj (x1 : List Char) : ∀ (x2 y1 y2 : List Char),
    '-' ∉ x1 → '-' ∉ x2 → x1 ++ '-' :: y1 = x2 ++ '-' :: y2 →
    x1 = x2 ∧ y1 = y2 := by
  induction x1 with
  | nil =>
    intro x2 y1 y2 _ h2 h
    cases x2 with
    | nil => simpa using h
    | cons c x2 =>
      simp only [List.nil_append, List.cons_append, List.cons.injEq] at h
      exact absurd (h.1 ▸ List.mem_cons_self c x2) (h.1 ▸ h2)
  | cons a x1 ih =>
    intro x2 y1 y2 h1 h2 h
    cases x2 with
    | nil =>
      simp only [List.nil_append, List.cons_append, List.cons.injEq] at h
      exact absurd (h.1 ▸ List.mem_cons_self a x1) (h.1 ▸ h1)
    | cons b x2 =>
      simp only [List.cons_append, List.cons.injEq] at h
      have hr := ih x2 y1 y2 (fun hm => h1 (List.mem_cons_of_mem a hm))
        (fun hm => h2 (List.mem_cons_of_mem b hm)) h.2
      exact ⟨by rw [h.1, hr.1], hr.2⟩

theorem reverse_append_dash (x y : List Char) :
    (x ++ '-' :: y).reverse = y.reverse ++ '-' :: x.reverse := by
  simp [List.reverse_append]

theorem sourceId_num_inj {c1 c2 : String} {i j : Nat}
    (h : c1 ++ "-" ++ Nat.repr i = c2 ++ "-" ++ Nat.repr j) : i = j := by
  have hd : c1.data ++ '-' :: (Nat.repr i).data
      = c2.data ++ '-' :: (Nat.repr j).data := by
    have := congrArg String.data h
    simpa [String.data_append] using this
  have hrev : (Nat.repr i).data.reverse ++ '-' :: c1.data.reverse
      = (Nat.repr j).data.reverse ++ '-' :: c2.data.reverse := by
    rw [← reverse_append_dash, ← reverse_append_dash, hd]
  have hsplit := dash_split_inj _ _ _ _
    (fun hm => dash_not_mem_repr i (List.mem_reverse.mp hm))
    (fun hm => dash_not_mem_repr j (List.mem_reverse.mp hm)) hrev
  have hdata : (Nat.repr i).data = (Nat.repr j).data := by
    have := congrArg List.reverse hsplit.1
    simpa using this
  exact natRepr_injective (String.ext hdata)

theorem mem_assignSourceIds : ∀ (k : Nat) (cs : List IngestChunk) (s : String),
    s ∈ assignSourceIds k cs → ∃ c j, k + 1 ≤ j + 1 ∧ s = sourceIdAt c j := by
  intro k cs
  induction cs generalizing k with
  | nil => intro s h; simp [assignSourceIds] at h
  | cons c cs ih =>
    intro s h
    rcases List.mem_cons.mp h with rfl | h
    · exact ⟨c, k, by omega, rfl⟩
    · obtain ⟨c2, j, hj, rfl⟩ := ih (k + 1) _ h
      exact ⟨c2, j, by omega, rfl⟩

theorem mem_assignSourceIds_lt : ∀ (k : Nat) (cs : List IngestChunk) (s : String),
    s ∈ assignSourceIds (k + 1) cs → ∃ c j, k < j ∧ s = sourceIdAt c j := by
  intro k cs
  induction cs generalizing k with
  | nil => intro s h; simp [assignSourceIds] at h
  | cons c cs ih =>
    intro s h
    rcases List.mem_cons.mp h with rfl | h
    · exact ⟨c, k + 1, by omega, rfl⟩
    · obtain ⟨c2, j, hj, rfl⟩ := ih (k + 1) _ h
      exact ⟨c2, j, by omega, rfl⟩

theorem assignSourceIds_pairwise_ne (k : Nat) (cs : List IngestChunk) :
    (assignSourceIds k cs).Pairwise (fun a b => a ≠ b) := by
  induction cs generalizing k with
  | nil => exact .nil
  | cons c cs ih =>
    refine List.Pairwise.cons ?_ (ih (k + 1))
    intro s hs heq
    obtain ⟨c2, j, hj, rfl⟩ := mem_assignSourceIds_lt k cs s hs
    have : k = j := @sourceId_num_inj (chatOf c) (chatOf c2) k j heq
    omega

theorem assignSourceIds_getElem : ∀ (k : Nat) (cs : List IngestChunk)
    (i : Nat) (h : i < cs.length),
    (assignSourceIds k cs)[i]? = some (sourceIdAt (cs.get ⟨i, h⟩) (k + i)) := by
  intro k cs
  induction cs generalizing k with
  | nil => intro i h; simp at h
  | cons c cs ih =>
    intro i h
    cases i with
    | zero => simp [assignSourceIds]
    | succ i =>
      have hi : i < cs.length := by simpa using h
      have := ih (k + 1) i hi
      have harith : k + 1 + i = k + (i + 1) := by omega
      simpa [assignSourceIds, harith] using this

end QuoteYourBS

namespace QuoteYourBS

/-- A first conversation with one chunk, for the C9 counterexample. -/
def convChunkA : IngestChunk := ⟨some "convA"⟩

/-- A second, distinct conversation with one chunk. -/
def convChunkB : IngestChunk := ⟨some "convB"⟩

/-- C9 (counterexample): the ingestion loop enumerates the full split
chunk list, so the second conversation's first chunk gets source id
`convB-1` (its global position), not `convB-0` as the per-conversation
sequence numbering of the claim would give. -/
theorem source_id_not_per_conversation :
    assignSourceIds 0 [convChunkA, convChunkB] = ["convA-0", "convB-1"] ∧
    specSourceIds [] [convChunkA, convChunkB] = ["convA-0", "convB-0"] ∧
    assignSourceIds 0 [convChunkA, convChunkB]
      ≠ specSourceIds [] [convChunkA, convChunkB] := by
  decide

/-- C9 (amended): every indexed chunk carries a source id of the form
`(conversation id)-(global chunk index)` — the index is the chunk's
position in the full split chunk list, not within its conversation — and
all assigned source ids are pairwise distinct. -/
theorem source_ids_globally_unique (texts : List IngestChunk) :
    (assignSourceIds 0 texts).Pairwise (fun a b => a ≠ b) ∧
    ∀ (i : Nat) (h : i < texts.length),
      (assignSourceIds 0 texts)[i]? = some (sourceIdAt (texts.get ⟨i, h⟩) i) := by
  refine ⟨assignSourceIds_pairwise_ne 0 texts, fun i h => ?_⟩
  have := assignSourceIds_getElem 0 texts i h
  simpa using this

/-- Witness for C9 (amended) at the two-conversation example. -/
theorem source_ids_globally_unique_witness :
    (1 < ([convChunkA, convChunkB] : List IngestChunk).length) ∧
    (assignSourceIds 0 [convChunkA, convChunkB]).Pairwise (fun a b => a ≠ b) ∧
    (assignSourceIds 0 [convChunkA, convChunkB])[1]?
      = some (sourceIdAt (([convChunkA, convChunkB] :
          List IngestChunk).get ⟨1, by decide⟩) 1) :=
  ⟨by decide, (source_ids_globally_unique [convChunkA, convChunkB]).1,
    (source_ids_globally_unique [convChunkA, convChunkB]).2 1 (by decide)⟩

/-- C10: the loader's per-file try/except isolates a parse failure — a
failing file contributes nothing but the documents of all other files
are still yielded, in order; in particular an all-good run yields every
document. -/
theorem loader_isolates_per_file_failures :
    (∀ (pre suf : List (Except ParseError Document)) (e : ParseError),
        lazyLoad (pre ++ .error e :: suf) = lazyLoad pre ++ lazyLoad suf) ∧
    (∀ ds : List Document, lazyLoad (ds.map .ok) = ds) := by
  constructor
  · intro pre suf e
    induction pre with
    | nil => simp [lazyLoad]
    | cons r pre ih =>
      cases r with
      | error e2 => simpa [lazyLoad] using ih
      | ok d => simpa [lazyLoad] using ih
  · intro ds
    induction ds with
    | nil => rfl
    | cons d ds ih => simpa [lazyLoad] using ih

end QuoteYourBS
